import Mathlib

/-!
Verification of the `ticket-amend` CLI (bin/ticket-amend.js).

The program is embedded shallowly: JavaScript string operations are modelled
over `String` (via its `List Char` data), the file system is modelled as an
explicit listing of the tickets directory, and every `process.exit` path is
an error value of an `Except`/`Outcome` type.  All definitions are
executable and kernel-reducible so that concrete runs can be settled by
`decide`.
-/

namespace TicketAmend

/-! ## String utilities mirroring the JS built-ins -/

/-- Whitespace predicate used by the JS `trim`/`trimEnd` calls (ASCII range). -/
def wsp (c : Char) : Bool := c.isWhitespace

/-- List-level trim used by `jsTrim`. -/
def trimL (l : List Char) : List Char :=
  ((l.dropWhile wsp).reverse.dropWhile wsp).reverse

/-- JS `String.prototype.trim`: drop whitespace from both ends. -/
def jsTrim (s : String) : String := ⟨trimL s.data⟩

/-- JS `String.prototype.trimEnd`: drop whitespace from the end. -/
def jsTrimEnd (s : String) : String :=
  ⟨(s.data.reverse.dropWhile wsp).reverse⟩

/-- Split a character list on a separator character; mirrors JS
`String.prototype.split` with a one-character separator (so splitting the
empty string yields one empty group). -/
def splitCh (sep : Char) : List Char → List (List Char)
  | [] => [[]]
  | c :: rest =>
    match splitCh sep rest with
    | [] => [[c]]
    | g :: gs => if c == sep then [] :: g :: gs else (c :: g) :: gs

/-- String-level wrapper of `splitCh`. -/
def splitChStr (sep : Char) (s : String) : List String :=
  (splitCh sep s.data).map (fun l => ⟨l⟩)

/-- Join strings with a separator; mirrors JS `Array.prototype.join`. -/
def joinSep (sep : String) : List String → String
  | [] => ""
  | [x] => x
  | x :: y :: r => x ++ sep ++ joinSep sep (y :: r)

/-- Boolean list-prefix test (kernel-reducible). -/
def prefixB : List Char → List Char → Bool
  | [], _ => true
  | _ :: _, [] => false
  | a :: as2, b :: bs => a == b && prefixB as2 bs

/-- Boolean contiguous-sublist test; mirrors JS `String.prototype.includes`. -/
def infixB (pat : List Char) : List Char → Bool
  | [] => prefixB pat []
  | c :: rest => prefixB pat (c :: rest) || infixB pat rest

/-- Boolean list-suffix test; mirrors JS `String.prototype.endsWith`. -/
def suffixB (pat l : List Char) : Bool := prefixB pat.reverse l.reverse

/-- Index of the first occurrence of `pat` in a character list, if any. -/
def findSub (pat : List Char) : List Char → Option Nat
  | [] => if prefixB pat [] then some 0 else none
  | c :: rest =>
    if prefixB pat (c :: rest) then some 0
    else (findSub pat rest).map (· + 1)

/-! ## The tags field

`bin/ticket-amend.js` lines 199-220: the existing `tags` value has its
surrounding brackets removed (`existing.replace(/^\[|\]$/g, '')`), is split
on commas, each token trimmed, empty tokens dropped; the comma-separated
input is split the same way (without bracket stripping); each new token not
already present is pushed; the result is re-encoded as `[t1, t2]`. -/

/-- Parse a comma-separated value: split on commas, trim, drop empties. -/
def parseCSV (t : String) : List String :=
  ((splitChStr (',') t).map jsTrim).filter (fun x => x != "")

/-- Remove one leading `[` and one trailing `]`, as the JS regex
`/^\[|\]$/g` does. -/
def stripBrackets (s : String) : String :=
  let l1 := match s.data with
    | '[' :: r => r
    | l => l
  ⟨match l1.reverse with
    | ']' :: r => r.reverse
    | _ => l1⟩

/-- Parse a bracketed tag-list value into its token sequence. -/
def parseTags (s : String) : List String := parseCSV (stripBrackets s)

/-- Encode a token sequence back to the bracketed form. -/
def encodeTags (l : List String) : String := "[" ++ joinSep (", ") l ++ "]"

/-- The append loop: push each new token not already present. -/
def appendNew (ex new : List String) : List String :=
  new.foldl (fun acc t => if t ∈ acc then acc else acc ++ [t]) ex

/-- The whole tags amendment: `existing` is the current field value
(`none` when the field is absent; the JS also treats the empty string as
absent via truthiness), `input` the `--tags` argument. -/
def appendTags (existing : Option String) (input : String) : String :=
  let ex := match existing with
    | some e => if e = "" then [] else parseTags e
    | none => []
  encodeTags (appendNew ex (parseCSV input))

/-! ## The frontmatter engine

`bin/ticket-amend.js` lines 130-165 and 238-243: the file must match
`/^---\n([\s\S]*?)\n---\n([\s\S]*)$/`; the frontmatter part is split into
lines; a line matching `/^([a-z][a-z0-9-]*): ?(.*)$/` becomes a recognized
field, anything else an opaque line kept verbatim; serialization re-emits
recognized fields as `key: value` and opaque lines unchanged. -/

/-- One frontmatter line: a recognized `key: value` field or an opaque line. -/
inductive FMEntry : Type
  | field (key value : String)
  | raw (line : String)
deriving DecidableEq

/-- Characters allowed in a key after the first: `[a-z0-9-]`. -/
def keyChar (c : Char) : Bool := c.isLower || c.isDigit || c == '-'

/-- Parse one frontmatter line with the JS line regex: a maximal run of key
characters starting with a lowercase letter, a colon, one optional space,
then the value. -/
def parseLine (l : String) : FMEntry :=
  match l.data with
  | [] => .raw l
  | c :: rest =>
    if c.isLower then
      match rest.dropWhile keyChar with
      | ':' :: vrest =>
        .field ⟨c :: rest.takeWhile keyChar⟩
          ⟨match vrest with
            | ' ' :: v2 => v2
            | v2 => v2⟩
      | _ => .raw l
    else .raw l

/-- Serialize one entry, as the write-back loop on lines 238-240 does. -/
def renderEntry : FMEntry → String
  | .field k v => k ++ (": ") ++ v
  | .raw l => l

/-- Does this entry carry the given key? (`f.key === key` in JS; opaque
lines have no key.) -/
def entryHasKey (k : String) : FMEntry → Bool
  | .field k2 _ => k2 == k
  | .raw _ => false

/-- `setField`: overwrite the first field with this key in place, else
append a new field at the end (lines 158-165). -/
def setField (k v : String) (es : List FMEntry) : List FMEntry :=
  match es.findIdx? (entryHasKey k) with
  | some i => es.set i (.field k v)
  | none => es ++ [.field k v]

/-- `getField`: value of the first field with this key (lines 153-156). -/
def getField (k : String) (es : List FMEntry) : Option String :=
  match es.find? (entryHasKey k) with
  | some (.field _ v) => some v
  | _ => none

/-- Reassemble the whole file from entries and body (lines 238-242). -/
def serializeTicket (es : List FMEntry) (body : String) : String :=
  "---\n" ++ joinSep ("\n") (es.map renderEntry) ++ ("\n---\n") ++ body

/-- Split a ticket file into frontmatter text and body with the anchored
non-greedy regex on line 131: the file must start with `---\n`, and the
frontmatter runs up to the first later `\n---\n`. -/
def splitFM (content : String) : Option (String × String) :=
  if prefixB ("---\n").data content.data then
    let rest := content.data.drop 4
    match findSub (("\n---\n").data) rest with
    | some i => some (⟨rest.take i⟩, ⟨rest.drop (i + 5)⟩)
    | none => none
  else none

/-- Frontmatter text to entry list: split on newlines, parse each line. -/
def parseFMLines (fm : String) : List FMEntry :=
  (splitChStr ('\n') fm).map parseLine

/-- Load a ticket, replace one scalar field, and serialize it back — the
path taken for `-t`, `-p`, `-a` and `--external-ref`. -/
def amendScalar (content k v : String) : Option String :=
  (splitFM content).map
    (fun p => serializeTicket (setField k v (parseFMLines p.1)) p.2)

/-! ## Ticket locator

`bin/ticket-amend.js` lines 77-124.  The tickets directory listing is
modelled as the list of entry names; paths inside the directory are the
entry names themselves.  Directories on the walk are modelled as reversed
component lists (head = deepest component), so `path.dirname` is `List.tail`
and the filesystem root is `[]`. -/

/-- Every `process.exit(1)` path of the program. -/
inductive Err : Type
  | unknownOption (tok : String)
  | idRequired
  | noTicketsDir
  | notFound (id : String)
  | ambiguous (id : String)
  | invalidFrontmatter
  | nothingToAmend
  | typeError
  | ioError
deriving DecidableEq

/-- `path.basename(f, '.md')`: strip the extension when it is a proper
suffix. -/
def stripMd (f : String) : String :=
  if suffixB ((".md").data) f.data ∧ 3 < f.data.length then
    ⟨f.data.take (f.data.length - 3)⟩
  else f

/-- The filter of line 113: ticket files whose name contains the trimmed
identifier as a substring. -/
def ticketMatches (files : List String) (t : String) : List String :=
  files.filter (fun f => suffixB ((".md").data) f.data && infixB t.data f.data)

/-- `resolveTicket` (lines 101-124): exact filename first, then unique
substring match; zero matches is "not found", several are "ambiguous". -/
def resolveTicket (files : List String) (tid : String) : Except Err String :=
  let exact := jsTrim tid ++ (".md")
  if exact ∈ files then .ok exact
  else
    match ticketMatches files (jsTrim tid) with
    | [m] => .ok m
    | [] => .error (.notFound tid)
    | _ => .error (.ambiguous tid)

/-! ## Directory resolution (`findTicketsDir`, lines 77-97) -/

/-- The parent-directory walk: test `dir/.tickets` at each level starting
from the working directory; stop when the parent equals the directory
(the root). `has dir` states that `dir/.tickets` exists and is a
directory. -/
def walkUp (has : List String → Bool) : List String → Except Err (List String)
  | [] => if has [] then .ok ([".tickets"]) else .error .noTicketsDir
  | c :: rest =>
    if has (c :: rest) then .ok (".tickets" :: c :: rest)
    else walkUp has rest

/-- Directory resolution: the `TICKETS_DIR` environment value is returned
directly when truthy (JS `if (envDir)`, so the empty string does not
count); otherwise the walk runs.  The two provenances are kept apart in a
sum. -/
def findTicketsDir (env : Option String) (has : List String → Bool)
    (cwd : List String) : Except Err (Sum String (List String)) :=
  match env with
  | some d => if d = "" then (walkUp has cwd).map .inr else .ok (.inl d)
  | none => (walkUp has cwd).map .inr

/-! ## Argument interpreter (lines 9-72)

`args[++i]` past the end of the array is `undefined` in JS; every later use
of such a value is in string position (template or concatenation) where it
renders as the string `undefined`, except `--tags` and `--parent`, whose
values are called as `.split`/`.trim` receivers and raise an uncaught
`TypeError`.  `JStr` keeps that distinction. -/

/-- A captured option value: a real token or JS `undefined`. -/
inductive JStr : Type
  | undef
  | s (v : String)
deriving DecidableEq

/-- Coercion to string position, where `undefined` prints as itself. -/
def jsString : JStr → String
  | .undef => "undefined"
  | .s v => v

/-- The mutation request accumulated by the argument loop; `id = ""` stands
for the JS `null` (both are falsy in every use). `ttype` is the `type`
variable (a keyword in Lean). -/
structure Req : Type where
  id : String
  description : Option JStr
  ttype : Option JStr
  priority : Option JStr
  assignee : Option JStr
  externalRef : Option JStr
  parent : Option JStr
  tags : Option JStr
deriving DecidableEq

/-- All variables start as `null`. -/
def emptyReq : Req := ⟨"", none, none, none, none, none, none, none⟩

/-- Does this token begin the value-taking-flag cases of the switch? -/
def isValueFlag (a : String) : Bool :=
  a == "-d" || a == "--description" || a == "-t" || a == "--type" ||
  a == "-p" || a == "--priority" || a == "-a" || a == "--assignee" ||
  a == "--external-ref" || a == "--parent" || a == "--tags"

/-- Record a value-taking flag's value in the request. -/
def applyFlag (acc : Req) (flag : String) (v : JStr) : Req :=
  if flag == "-d" || flag == "--description" then {acc with description := some v}
  else if flag == "-t" || flag == "--type" then {acc with ttype := some v}
  else if flag == "-p" || flag == "--priority" then {acc with priority := some v}
  else if flag == "-a" || flag == "--assignee" then {acc with assignee := some v}
  else if flag == "--external-ref" then {acc with externalRef := some v}
  else if flag == "--parent" then {acc with parent := some v}
  else if flag == "--tags" then {acc with tags := some v}
  else acc

/-- `args[i].startsWith('-')`. -/
def startsWithDash (a : String) : Bool :=
  match a.data with
  | '-' :: _ => true
  | _ => false

/-- The argument loop (lines 43-67): value flags consume the next token
(JS `undefined` when there is none), an unrecognized dash token is the
fatal "unknown option", the first other token becomes the identifier and
later ones are ignored. -/
def parseLoop : Req → List String → Except Err Req
  | acc, [] => .ok acc
  | acc, a :: rest =>
    if isValueFlag a then
      match rest with
      | [] => .ok (applyFlag acc a .undef)
      | v :: r => parseLoop (applyFlag acc a (.s v)) r
    else if startsWithDash a then .error (.unknownOption a)
    else if acc.id = "" then parseLoop {acc with id := a} rest
    else parseLoop acc rest

/-! ## Applying the amendments (lines 169-234) -/

/-- `changed` is set exactly when one of the seven option variables is not
`null`. -/
def changedReq (req : Req) : Bool :=
  req.ttype.isSome || req.priority.isSome || req.assignee.isSome ||
  req.externalRef.isSome || req.parent.isSome || req.tags.isSome ||
  req.description.isSome

/-- Body append for `-d` (lines 223-229): trim trailing whitespace, then a
blank line, the text, and a final newline. -/
def appendBody (body text : String) : String :=
  jsTrimEnd body ++ ("\n\n") ++ text ++ ("\n")

/-- One optional scalar replacement. -/
def setScalar (flagVal : Option JStr) (k : String) (es : List FMEntry) :
    List FMEntry :=
  match flagVal with
  | some v => setField k (jsString v) es
  | none => es

/-- Description append and the `nothing to amend` check (lines 223-234). -/
def applyAmendFinal (req : Req) (es : List FMEntry) (body : String) :
    Except Err (List FMEntry × String) :=
  let newBody := match req.description with
    | some d => appendBody body (jsString d)
    | none => body
  if changedReq req then .ok (es, newBody) else .error .nothingToAmend

/-- Tags amendment (lines 199-220); an `undefined` tags value crashes in
`tags.split`. -/
def applyAmendRest (req : Req) (es : List FMEntry) (body : String) :
    Except Err (List FMEntry × String) :=
  match req.tags with
  | some .undef => .error .typeError
  | some (.s t) =>
    applyAmendFinal req (setField ("tags") (appendTags (getField ("tags") es) t) es) body
  | none => applyAmendFinal req es body

/-- All mutations in program order: type, priority, assignee, external-ref,
parent (with its own resolution), tags, description.  An `undefined` parent
crashes in `id.trim()` inside `resolveTicket`. -/
def applyAmend (files : List String) (req : Req) (es0 : List FMEntry)
    (body : String) : Except Err (List FMEntry × String) :=
  let es4 := setScalar req.externalRef ("external-ref")
    (setScalar req.assignee ("assignee")
      (setScalar req.priority ("priority")
        (setScalar req.ttype ("type") es0)))
  match req.parent with
  | some .undef => .error .typeError
  | some (.s p) =>
    match resolveTicket files p with
    | .error e => .error e
    | .ok pf => applyAmendRest req (setField ("parent") (stripMd pf) es4) body
  | none => applyAmendRest req es4 body

/-! ## Orchestrator (whole file top to bottom) -/

/-- The observable result of one invocation. -/
inductive Outcome : Type
  | printUsage
  | printDescriptor (line : String)
  | fatal (e : Err)
  | success (file newContent msg : String)
deriving DecidableEq

/-- Exit status of an outcome. -/
def exitCode : Outcome → Nat
  | .fatal _ => 1
  | _ => 0

/-- The fixed plugin-discovery line (line 12). -/
def descriptorLine : String := "tk-plugin: Amend fields on an existing ticket"

/-- Contents of the resolved tickets directory: entry name to file bytes. -/
def lookupFile (files : List (String × String)) (n : String) : Option String :=
  (files.find? (fun p => p.1 == n)).map Prod.snd

/-- One whole invocation: discovery short-circuit, help short-circuit,
argument loop, identifier check, directory resolution, ticket resolution,
frontmatter load, amendments, serialization. -/
def runProgram (args : List String) (env : Option String)
    (has : List String → Bool) (cwd : List String)
    (files : List (String × String)) : Outcome :=
  if args.contains ("--tk-describe") then .printDescriptor descriptorLine
  else if args.contains ("-h") || args.contains ("--help") || args.isEmpty then
    .printUsage
  else
    match parseLoop emptyReq args with
    | .error e => .fatal e
    | .ok req =>
      if req.id = "" then .fatal .idRequired
      else
        match findTicketsDir env has cwd with
        | .error e => .fatal e
        | .ok _ =>
          match resolveTicket (files.map Prod.fst) req.id with
          | .error e => .fatal e
          | .ok fname =>
            match lookupFile files fname with
            | none => .fatal .ioError
            | some content =>
              match splitFM content with
              | none => .fatal .invalidFrontmatter
              | some fmb =>
                match applyAmend (files.map Prod.fst) req (parseFMLines fmb.1)
                    fmb.2 with
                | .error e => .fatal e
                | .ok r =>
                  .success fname (serializeTicket r.1 r.2)
                    ("Amended " ++ stripMd fname)

/-- Effect of an outcome on the directory: only a success writes, and it
replaces the resolved file's bytes wholesale. -/
def applyOutcome (o : Outcome) (files : List (String × String)) :
    List (String × String) :=
  match o with
  | .success f c _ => files.map (fun p => if p.1 = f then (p.1, c) else p)
  | _ => files

/-! ## Helper lemmas -/

theorem parseTags_empty : parseTags "" = [] := rfl

theorem appendNew_nil_right (ex : List String) : appendNew ex [] = ex := rfl

theorem appendNew_cons (ex : List String) (n : String) (ns : List String) :
    appendNew ex (n :: ns) =
      appendNew (if n ∈ ex then ex else ex ++ [n]) ns := rfl

theorem appendNew_all_mem (new : List String) :
    ∀ ex : List String, (∀ x ∈ new, x ∈ ex) → appendNew ex new = ex := by
  induction new with
  | nil => intro ex _; rfl
  | cons n ns ih =>
    intro ex h
    rw [appendNew_cons, if_pos (h n (by simp))]
    exact ih ex (fun x hx => h x (by simp [hx]))

theorem appendNew_disjoint (new : List String) :
    ∀ ex : List String, new.Nodup → (∀ x ∈ new, x ∉ ex) →
      appendNew ex new = ex ++ new := by
  induction new with
  | nil => intro ex _ _; simp [appendNew_nil_right]
  | cons n ns ih =>
    intro ex hnd hdisj
    rw [appendNew_cons, if_neg (hdisj n (by simp))]
    rw [ih (ex ++ [n]) (List.nodup_cons.mp hnd).2]
    · simp
    · intro x hx
      simp only [List.mem_append, List.mem_singleton]
      rintro (hmem | hrfl)
      · exact hdisj x (by simp [hx]) hmem
      · exact (List.nodup_cons.mp hnd).1 (hrfl ▸ hx)

theorem appendNew_structure (new : List String) :
    ∀ ex : List String, ∃ add, appendNew ex new = ex ++ add ∧ add.Nodup ∧
      ∀ x ∈ add, x ∉ ex ∧ x ∈ new := by
  induction new with
  | nil => intro ex; exact ⟨[], by simp [appendNew_nil_right], by simp, by simp⟩
  | cons n ns ih =>
    intro ex
    by_cases hn : n ∈ ex
    · obtain ⟨add, h1, h2, h3⟩ := ih ex
      refine ⟨add, ?_, h2, ?_⟩
      · rw [appendNew_cons, if_pos hn]; exact h1
      · intro x hx
        exact ⟨(h3 x hx).1, by simp [(h3 x hx).2]⟩
    · obtain ⟨add, h1, h2, h3⟩ := ih (ex ++ [n])
      refine ⟨n :: add, ?_, ?_, ?_⟩
      · rw [appendNew_cons, if_neg hn, h1]; simp
      · refine List.nodup_cons.mpr ⟨fun hmem => ?_, h2⟩
        exact (h3 n hmem).1 (by simp)
      · intro x hx
        rcases List.mem_cons.mp hx with hrfl | hmem
        · exact ⟨hrfl ▸ hn, by simp [hrfl]⟩
        · have := h3 x hmem
          exact ⟨fun hc => this.1 (by simp [hc]), by simp [this.2]⟩

theorem dropWhile_length_le {α : Type} (p : α → Bool) (l : List α) :
    (l.dropWhile p).length ≤ l.length := by
  induction l with
  | nil => simp
  | cons c t ih =>
    rw [List.dropWhile_cons]
    split
    · exact le_trans ih (by simp)
    · simp

theorem dropWhile_fixed_head {α : Type} (p : α → Bool) (c : α) (t : List α)
    (h : List.dropWhile p (c :: t) = c :: t) : p c = false := by
  by_contra hcne
  have hc : p c = true := by simpa using hcne
  rw [List.dropWhile_cons, if_pos hc] at h
  have hle := dropWhile_length_le p t
  rw [h] at hle
  simp at hle

theorem dropWhile_prefix_fixed {α : Type} (p : α → Bool) {l l' : List α}
    (hl : List.dropWhile p l = l) (hp : l' <+: l) :
    List.dropWhile p l' = l' := by
  cases l' with
  | nil => simp
  | cons c t =>
    obtain ⟨r, hr⟩ := hp
    have hceq : l = c :: (t ++ r) := by rw [← hr]; simp
    have hc : p c = false := by
      apply dropWhile_fixed_head p c (t ++ r)
      rw [← hceq, hl, hceq]
    rw [List.dropWhile_cons, if_neg (by simp [hc])]

theorem trimL_idem (l : List Char) : trimL (trimL l) = trimL l := by
  have hAfix : (l.dropWhile wsp).dropWhile wsp = l.dropWhile wsp :=
    List.dropWhile_idempotent wsp l
  have hBpre : trimL l <+: l.dropWhile wsp := by
    have h1 : (l.dropWhile wsp).reverse.dropWhile wsp <:+ (l.dropWhile wsp).reverse :=
      List.dropWhile_suffix wsp
    have h2 := List.reverse_prefix.mpr h1
    rwa [List.reverse_reverse] at h2
  have hBfix : (trimL l).dropWhile wsp = trimL l :=
    dropWhile_prefix_fixed wsp hAfix hBpre
  show ((((trimL l).dropWhile wsp).reverse).dropWhile wsp).reverse = trimL l
  rw [hBfix]
  unfold trimL
  rw [List.reverse_reverse, List.dropWhile_idempotent]

theorem jsTrim_idem (s : String) : jsTrim (jsTrim s) = jsTrim s := by
  show (⟨trimL (trimL s.data)⟩ : String) = ⟨trimL s.data⟩
  rw [trimL_idem]

theorem parseCSV_mem (t : String) : ∀ x ∈ parseCSV t, jsTrim x = x ∧ x ≠ "" := by
  intro x hx
  unfold parseCSV at hx
  obtain ⟨hmem, hne⟩ := List.mem_filter.mp hx
  obtain ⟨y, _, hy⟩ := List.mem_map.mp hmem
  constructor
  · rw [← hy, jsTrim_idem]
  · simpa using hne

/-- Dropping whitespace from a reversed body block stops at the reversed
appended text. -/
theorem dropWhile_rev_block (A T : List Char) (hT : T.dropWhile wsp = T)
    (hTne : T ≠ []) :
    List.dropWhile wsp ('\n' :: (T ++ ('\n' :: '\n' :: A)))
      = T ++ ('\n' :: '\n' :: A) := by
  obtain ⟨c, cs, rfl⟩ := List.exists_cons_of_ne_nil hTne
  have hcw : wsp c = false := dropWhile_fixed_head wsp c cs hT
  rw [List.dropWhile_cons, if_pos (by decide)]
  rw [List.cons_append]
  rw [List.dropWhile_cons, if_neg (by simp [hcw])]

/-- The trailing-trim of a block ending in a non-blank trimmed text and one
newline removes exactly that newline. -/
theorem jsTrimEnd_append_block (b t1 : String)
    (h1 : jsTrimEnd t1 = t1) (h2 : t1 ≠ "") :
    jsTrimEnd (appendBody b t1) = jsTrimEnd b ++ ("\n\n") ++ t1 := by
  have hT : (t1.data.reverse).dropWhile wsp = t1.data.reverse := by
    have h3 : (t1.data.reverse.dropWhile wsp).reverse = t1.data :=
      congrArg String.data h1
    have h4 := congrArg List.reverse h3
    rwa [List.reverse_reverse] at h4
  have hTne : t1.data.reverse ≠ [] := by
    intro hcon
    apply h2
    apply String.ext
    have h5 := congrArg List.reverse hcon
    rwa [List.reverse_reverse] at h5
  apply String.ext
  show ((appendBody b t1).data.reverse.dropWhile wsp).reverse
      = ((jsTrimEnd b ++ ("\n\n")) ++ t1).data
  have hrev : (appendBody b t1).data.reverse
      = '\n' :: (t1.data.reverse ++ ('\n' :: '\n' :: (jsTrimEnd b).data.reverse)) := by
    show (((jsTrimEnd b ++ ("\n\n")) ++ t1) ++ ("\n")).data.reverse = _
    rw [String.data_append, String.data_append, String.data_append]
    rw [List.reverse_append, List.reverse_append, List.reverse_append]
    rfl
  rw [hrev, dropWhile_rev_block ((jsTrimEnd b).data.reverse) (t1.data.reverse) hT hTne]
  rw [String.data_append, String.data_append]
  have hnn : ("\n\n" : String).data = ['\n', '\n'] := rfl
  simp [hnn]

/-! ## C1 -/

/-- C1: the argument loop does not recognize `--set KEY=VALUE` or
`--append KEY=VALUE`; both tokens fall into the unknown-option branch and
the program terminates fatally before any directive is recorded, whatever
the environment and file system look like. -/
theorem c1_set_append_rejected :
    (∀ env has cwd fs,
      runProgram (["ab-1234", "--set", "status=closed"]) env has cwd fs
        = .fatal (.unknownOption ("--set")))
    ∧ (∀ env has cwd fs,
        runProgram (["ab-1234", "--append", "deps=x"]) env has cwd fs
          = .fatal (.unknownOption ("--append"))) := by
  constructor <;> (intro env has cwd fs; rfl)

/-! ## C2 -/

/-- C2 counterexample: a valid ticket whose recognized line `status:open`
lacks the space after the colon is re-emitted normalized as `status: open`
when an unrelated field is replaced, so it is not reproduced byte-for-byte. -/
theorem c2_counterexample :
    parseLine ("status:open") = .field ("status") ("open")
    ∧ amendScalar ("---\nid: ab-1\nstatus:open\n---\nbody\n") ("type") ("bug")
        = some ("---\nid: ab-1\nstatus: open\ntype: bug\n---\nbody\n")
    ∧ ("---\nid: ab-1\nstatus: open\ntype: bug\n---\nbody\n" : String)
        ≠ "---\nid: ab-1\nstatus:open\ntype: bug\n---\nbody\n" := by
  decide

/-- C2 (amended): on a ticket whose frontmatter lines are all canonical
(each line re-renders to itself), replacing one scalar field rewrites
exactly the first line carrying that key (or appends a new final line when
the key is absent) and reproduces every other frontmatter line and the body
byte-for-byte. -/
theorem c2_scalar_replace_frame (lines : List String) (k v body : String)
    (hc : ∀ l ∈ lines, renderEntry (parseLine l) = l) :
    serializeTicket (setField k v (lines.map parseLine)) body
      = "---\n"
        ++ joinSep ("\n") ((setField k v (lines.map parseLine)).map renderEntry)
        ++ ("\n---\n") ++ body
    ∧ ((lines.map parseLine).findIdx? (entryHasKey k) = none →
        (setField k v (lines.map parseLine)).map renderEntry
          = lines ++ [k ++ (": ") ++ v])
    ∧ (∀ j, (lines.map parseLine).findIdx? (entryHasKey k) = some j →
        (setField k v (lines.map parseLine)).map renderEntry
          = lines.set j (k ++ (": ") ++ v)) := by
  have hmap : (lines.map parseLine).map renderEntry = lines := by
    rw [List.map_map]
    have := List.map_congr_left (f := renderEntry ∘ parseLine) (g := id)
      (l := lines) (fun a ha => hc a ha)
    rw [this, List.map_id]
  refine ⟨rfl, ?_, ?_⟩
  · intro hnone
    unfold setField
    rw [hnone]
    simp only [List.map_append, hmap, List.map_cons, List.map_nil]
    rfl
  · intro j hj
    unfold setField
    rw [hj, List.map_set, hmap]
    rfl

/-- Witness for C2: replacing `type` on a concrete canonical ticket touches
only the `type` line. -/
theorem c2_witness :
    (setField ("type") ("bug")
        ((["id: ab-1234", "status: open", "type: task"]).map parseLine)).map renderEntry
      = (["id: ab-1234", "status: open", "type: task"]).set 2 ("type" ++ (": ") ++ "bug") :=
  (c2_scalar_replace_frame (["id: ab-1234", "status: open", "type: task"])
    ("type") ("bug") ("x\n") (by decide)).2.2 2 (by decide)

/-! ## C3 -/

/-- C3: for a canonically encoded tags value, appending only tags already
present leaves the encoded list unchanged; appending distinct tags none of
which is present yields the original token sequence followed by the new
tokens in input order; and the concrete example of the claim holds. -/
theorem c3_tags_append_idempotent :
    (∀ s t : String, encodeTags (parseTags s) = s →
      (∀ x ∈ parseCSV t, x ∈ parseTags s) → appendTags (some s) t = s)
    ∧ (∀ s t : String, (parseCSV t).Nodup →
        (∀ x ∈ parseCSV t, x ∉ parseTags s) →
        appendTags (some s) t = encodeTags (parseTags s ++ parseCSV t))
    ∧ appendTags (some ("[backend, api]")) ("api,frontend")
        = "[backend, api, frontend]" := by
  refine ⟨?_, ?_, by decide⟩
  · intro s t hc hmem
    by_cases hs : s = ""
    · rw [hs] at hc
      exact absurd hc (by decide)
    · show encodeTags (appendNew (if s = "" then [] else parseTags s) (parseCSV t)) = s
      rw [if_neg hs, appendNew_all_mem _ _ hmem, hc]
  · intro s t hnd hdisj
    by_cases hs : s = ""
    · subst hs
      show encodeTags (appendNew (if ("" : String) = "" then [] else parseTags "")
        (parseCSV t)) = _
      rw [if_pos rfl, appendNew_disjoint _ _ hnd (by simp), parseTags_empty]
    · show encodeTags (appendNew (if s = "" then [] else parseTags s) (parseCSV t)) = _
      rw [if_neg hs, appendNew_disjoint _ _ hnd hdisj]

/-- Witness for C3: the idempotence part applied to the claim example. -/
theorem c3_witness : appendTags (some ("[backend, api]")) ("api") = "[backend, api]" :=
  c3_tags_append_idempotent.1 _ _ (by decide) (by decide)

/-! ## C4 -/

/-- C4 counterexample: the code does not deduplicate the existing list, so a
tags value containing the same token twice still contains it twice after an
append, contradicting the claim. -/
theorem c4_counterexample :
    appendTags (some ("[a, a]")) ("b") = "[a, a, b]"
    ∧ (parseTags (appendTags (some ("[a, a]")) ("b"))).count ("a") = 2 := by
  decide

/-- C4 (amended): the existing bracketed value is parsed into an ordered
sequence of trimmed non-empty tokens, without deduplication; each new token
not already present is appended; the result is re-encoded with `[]` for the
empty list. -/
theorem c4_parse_append_structure :
    (∀ s : String, ∀ x ∈ parseTags s, jsTrim x = x ∧ x ≠ "")
    ∧ (∀ ex t : String, appendTags (some ex) t
        = encodeTags (appendNew (parseTags ex) (parseCSV t)))
    ∧ (∀ t : String, appendTags none t = encodeTags (appendNew ([]) (parseCSV t)))
    ∧ encodeTags [] = "[]"
    ∧ (∀ ex new : List String, ∃ add, appendNew ex new = ex ++ add ∧ add.Nodup ∧
        ∀ x ∈ add, x ∉ ex ∧ x ∈ new) := by
  refine ⟨?_, ?_, fun _ => rfl, rfl, fun ex new => appendNew_structure new ex⟩
  · intro s
    exact parseCSV_mem (stripBrackets s)
  · intro ex t
    by_cases hex : ex = ""
    · subst hex
      show encodeTags (appendNew (if ("" : String) = "" then [] else parseTags "")
        (parseCSV t)) = _
      rw [if_pos rfl, parseTags_empty]
    · show encodeTags (appendNew (if ex = "" then [] else parseTags ex) (parseCSV t)) = _
      rw [if_neg hex]

/-- Witness for C4: the parse-token property at a concrete tags value. -/
theorem c4_witness : jsTrim ("api") = "api" ∧ "api" ≠ "" :=
  c4_parse_append_structure.1 ("[backend, api]") ("api") (by decide)

/-! ## C5 -/

/-- C5: identifier resolution tries the exact trimmed filename first, then
substring matching with the one-match/none/many outcomes of the claim; and
the parent amendment runs the very same resolution, propagating its
failures through the amendment step. -/
theorem c5_identifier_resolution :
    (∀ files tid, (jsTrim tid ++ (".md")) ∈ files →
      resolveTicket files tid = .ok (jsTrim tid ++ (".md")))
    ∧ (∀ files tid m, (jsTrim tid ++ (".md")) ∉ files →
        ticketMatches files (jsTrim tid) = [m] → resolveTicket files tid = .ok m)
    ∧ (∀ files tid, (jsTrim tid ++ (".md")) ∉ files →
        ticketMatches files (jsTrim tid) = [] →
        resolveTicket files tid = .error (.notFound tid))
    ∧ (∀ files tid, (jsTrim tid ++ (".md")) ∉ files →
        2 ≤ (ticketMatches files (jsTrim tid)).length →
        resolveTicket files tid = .error (.ambiguous tid))
    ∧ (∀ files req es body p e, req.parent = some (.s p) →
        resolveTicket files p = .error e →
        applyAmend files req es body = .error e) := by
  refine ⟨?_, ?_, ?_, ?_, ?_⟩
  · intro files tid hex
    unfold resolveTicket
    rw [if_pos hex]
  · intro files tid m hex hms
    unfold resolveTicket
    rw [if_neg hex, hms]
  · intro files tid hex hms
    unfold resolveTicket
    rw [if_neg hex, hms]
  · intro files tid hex hlen
    unfold resolveTicket
    rw [if_neg hex]
    rcases hms : ticketMatches files (jsTrim tid) with _ | ⟨a, _ | ⟨b, l⟩⟩
    · rw [hms] at hlen; simp at hlen
    · rw [hms] at hlen; simp at hlen
    · rfl
  · intro files req es body p e hp hres
    simp [applyAmend, hp, hres]

/-- Witness for C5: the four outcomes at concrete directories, and a parent
resolution failure surfacing from the amendment step. -/
theorem c5_witness :
    resolveTicket (["ab-1234.md"]) ("ab-1234") = .ok ("ab-1234.md")
    ∧ resolveTicket (["ab-1234.md"]) ("1234") = .ok ("ab-1234.md")
    ∧ resolveTicket (["ab-1234.md"]) ("zz") = .error (.notFound ("zz"))
    ∧ resolveTicket (["ab-1234.md", "ab-5678.md"]) ("ab")
        = .error (.ambiguous ("ab"))
    ∧ applyAmend (["ab-1234.md", "ab-5678.md"])
          ({ emptyReq with id := "x", parent := some (.s ("ab")) }) [] ""
        = .error (.ambiguous ("ab")) :=
  ⟨c5_identifier_resolution.1 _ _ (by decide),
    c5_identifier_resolution.2.1 _ _ _ (by decide) (by decide),
    c5_identifier_resolution.2.2.1 _ _ (by decide) (by decide),
    c5_identifier_resolution.2.2.2.1 _ _ (by decide) (by decide),
    c5_identifier_resolution.2.2.2.2 _ _ _ _ _ _ rfl
      (c5_identifier_resolution.2.2.2.1 _ _ (by decide) (by decide))⟩

/-! ## C6 -/

/-- C6 counterexample: with the environment variable set to the empty
string and a discoverable directory present, the walk result is used, not
the environment value — "set" alone is not enough for precedence. -/
theorem c6_counterexample :
    findTicketsDir (some ("")) (fun _ => true) [] = .ok (.inr ([".tickets"]))
    ∧ (Except.ok (Sum.inr ([".tickets"])) : Except Err (Sum String (List String)))
        ≠ .ok (.inl "") := by
  constructor
  · rfl
  · simp

/-- C6 (amended): an environment value set to a non-empty string is used
unconditionally, whatever the walk would find; otherwise the walk starts at
the working directory inclusive, returns the first ancestor owning the
reserved subdirectory, descends one ancestor at a time, and reaching the
root without a match is the "no directory found" error. -/
theorem c6_directory_resolution :
    (∀ d has cwd, d ≠ "" → findTicketsDir (some d) has cwd = .ok (.inl d))
    ∧ (∀ has cwd, findTicketsDir none has cwd = (walkUp has cwd).map .inr)
    ∧ (∀ has cwd, has cwd = true → walkUp has cwd = .ok (".tickets" :: cwd))
    ∧ (∀ has c cwd, has (c :: cwd) = false → walkUp has (c :: cwd) = walkUp has cwd)
    ∧ (∀ has cwd, walkUp has cwd = .error .noTicketsDir ↔
        ∀ s, s <:+ cwd → has s = false) := by
  refine ⟨?_, fun _ _ => rfl, ?_, ?_, ?_⟩
  · intro d has cwd hd
    simp [findTicketsDir, hd]
  · intro has cwd hcwd
    cases cwd with
    | nil => unfold walkUp; rw [if_pos hcwd]
    | cons c rest => unfold walkUp; rw [if_pos hcwd]
  · intro has c cwd hfalse
    show (if has (c :: cwd) = true then Except.ok ((".tickets") :: c :: cwd)
      else walkUp has cwd) = walkUp has cwd
    rw [if_neg (by simp [hfalse])]
  · intro has cwd
    induction cwd with
    | nil =>
      unfold walkUp
      by_cases h : has [] = true
      · rw [if_pos h]
        simp only [List.suffix_nil]
        constructor
        · intro hcontra; cases hcontra
        · intro hall
          rw [hall [] rfl] at h
          cases h
      · rw [if_neg h]
        simp only [List.suffix_nil, true_iff]
        intro s hs
        subst hs
        simpa using h
    | cons c rest ih =>
      unfold walkUp
      by_cases h : has (c :: rest) = true
      · rw [if_pos h]
        constructor
        · intro hcontra; cases hcontra
        · intro hall
          rw [hall (c :: rest) (List.suffix_refl _)] at h
          cases h
      · rw [if_neg h]
        rw [ih]
        constructor
        · intro hall s hs
          rcases List.suffix_cons_iff.mp hs with heq | hsuf
          · subst heq; simpa using h
          · exact hall s hsuf
        · intro hall s hs
          exact hall s (List.suffix_cons_iff.mpr (Or.inr hs))

/-- Witness for C6: a non-empty override wins over a walk that would find a
different directory; a walk three levels deep finds the directory; a walk
with nothing above fails. -/
theorem c6_witness :
    findTicketsDir (some ("/other/.tickets")) (fun _ => true) (["c", "b", "a"])
        = .ok (.inl "/other/.tickets")
    ∧ walkUp (fun d => d == ["a"]) (["c", "b", "a"]) = .ok ([".tickets", "a"])
    ∧ walkUp (fun _ => false) (["c", "b", "a"]) = .error .noTicketsDir :=
  ⟨c6_directory_resolution.1 _ _ _ (by decide),
    by
      rw [c6_directory_resolution.2.2.2.1 _ _ _ (by decide),
        c6_directory_resolution.2.2.2.1 _ _ _ (by decide)]
      exact c6_directory_resolution.2.2.1 _ _ (by decide),
    (c6_directory_resolution.2.2.2.2 _ _).mpr (fun s _ => rfl)⟩

/-! ## C7 -/

/-- C7: a request with no mutating option at all fails with the
"nothing to amend" error, and on every fatal outcome the directory contents
are untouched — a run either writes the fully rewritten file or nothing. -/
theorem c7_nothing_to_amend :
    (∀ files req es body, req.ttype = none → req.priority = none →
        req.assignee = none → req.externalRef = none → req.parent = none →
        req.tags = none → req.description = none →
        applyAmend files req es body = .error .nothingToAmend)
    ∧ (∀ args env has cwd fs e, runProgram args env has cwd fs = .fatal e →
        applyOutcome (runProgram args env has cwd fs) fs = fs) := by
  constructor
  · intro files req es body h1 h2 h3 h4 h5 h6 h7
    simp [applyAmend, applyAmendRest, applyAmendFinal, setScalar, changedReq,
      h1, h2, h3, h4, h5, h6, h7]
  · intro args env has cwd fs e h
    rw [h]
    rfl

/-- Witness for C7: a flagless invocation on a resolvable ticket fails with
"nothing to amend", and a fatal run leaves the directory as it was. -/
theorem c7_witness :
    applyAmend (["ab-1234.md"]) emptyReq [] "" = .error .nothingToAmend
    ∧ applyOutcome
        (runProgram (["zz"]) none (fun _ => false) [] ([("ab-1234.md", "x")]))
        ([("ab-1234.md", "x")]) = [("ab-1234.md", "x")] :=
  ⟨c7_nothing_to_amend.1 _ _ _ _ rfl rfl rfl rfl rfl rfl rfl,
    c7_nothing_to_amend.2 (["zz"]) none (fun _ => false) []
      ([("ab-1234.md", "x")]) Err.noTicketsDir rfl⟩

/-! ## C8 -/

/-- C8: one description append produces trimmed body, blank line, text,
newline; a second append accumulates after the first, each separated by one
blank line, whenever the appended text is non-empty and carries no trailing
whitespace of its own. -/
theorem c8_description_append (b t1 t2 : String)
    (h1 : jsTrimEnd t1 = t1) (h2 : t1 ≠ "") :
    appendBody b t1 = jsTrimEnd b ++ ("\n\n") ++ t1 ++ ("\n")
    ∧ appendBody (appendBody b t1) t2
        = jsTrimEnd b ++ ("\n\n") ++ t1 ++ ("\n\n") ++ t2 ++ ("\n") := by
  refine ⟨rfl, ?_⟩
  show jsTrimEnd (appendBody b t1) ++ ("\n\n") ++ t2 ++ ("\n") = _
  rw [jsTrimEnd_append_block b t1 h1 h2]

/-- Witness for C8: two concrete appends separated by single blank lines. -/
theorem c8_witness :
    appendBody (appendBody ("# T\n\nOrig\n") ("First addition")) ("Second addition")
      = jsTrimEnd ("# T\n\nOrig\n") ++ ("\n\n") ++ "First addition" ++ ("\n\n")
        ++ "Second addition" ++ ("\n") :=
  (c8_description_append ("# T\n\nOrig\n") ("First addition") ("Second addition")
    (by decide) (by decide)).2

/-! ## C9 -/

/-- C9: the discovery flag anywhere in the arguments prints the one-line
descriptor and exits 0 before anything else (the result does not depend on
environment, working directory or file system); otherwise zero arguments or
a help flag prints usage and exits 0. -/
theorem c9_discovery_help (args : List String) (env : Option String)
    (has : List String → Bool) (cwd : List String)
    (files : List (String × String)) :
    (args.contains ("--tk-describe") = true →
      runProgram args env has cwd files = .printDescriptor descriptorLine
      ∧ exitCode (runProgram args env has cwd files) = 0)
    ∧ (args.contains ("--tk-describe") = false →
        (args.contains ("-h") || args.contains ("--help") || args.isEmpty) = true →
        runProgram args env has cwd files = .printUsage
        ∧ exitCode (runProgram args env has cwd files) = 0) := by
  constructor
  · intro h
    have hrun : runProgram args env has cwd files = .printDescriptor descriptorLine := by
      unfold runProgram
      rw [if_pos h]
    exact ⟨hrun, by rw [hrun]; rfl⟩
  · intro h1 h2
    have hrun : runProgram args env has cwd files = .printUsage := by
      unfold runProgram
      rw [if_neg (by rw [h1]; simp), if_pos h2]
    exact ⟨hrun, by rw [hrun]; rfl⟩

/-- Witness for C9: discovery succeeds with an empty file system and no
tickets directory anywhere; no arguments print usage. -/
theorem c9_witness :
    runProgram (["--tk-describe"]) none (fun _ => false) [] []
        = .printDescriptor descriptorLine
    ∧ runProgram ([] : List String) none (fun _ => false) [] [] = .printUsage :=
  ⟨((c9_discovery_help (["--tk-describe"]) none (fun _ => false) [] []).1 rfl).1,
    ((c9_discovery_help ([] : List String) none (fun _ => false) [] []).2 rfl rfl).1⟩

/-! ## C10 -/

/-- C10: in the argument loop, a value-taking flag consumes the very next
token as its value whatever it looks like — the loop continues with that
token recorded in the request, so it is neither reported as an unknown
option nor taken as the positional identifier. -/
theorem c10_flag_value_consumption (acc : Req) (flag v : String)
    (rest : List String) (h : isValueFlag flag = true) :
    parseLoop acc (flag :: v :: rest) = parseLoop (applyFlag acc flag (.s v)) rest
    ∧ (applyFlag acc flag (.s v)).id = acc.id := by
  constructor
  · show (if isValueFlag flag then
        parseLoop (applyFlag acc flag (.s v)) rest
      else if startsWithDash flag then .error (.unknownOption flag)
      else if acc.id = "" then parseLoop {acc with id := flag} (v :: rest)
      else parseLoop acc (v :: rest)) = parseLoop (applyFlag acc flag (.s v)) rest
    rw [if_pos h]
  · show (applyFlag acc flag (.s v)).id = acc.id
    unfold applyFlag
    repeat' split
    all_goals rfl

/-- Witness for C10: `-d` swallows a dash-prefixed following token. -/
theorem c10_witness :
    parseLoop emptyReq (["-d", "--bogus"])
        = parseLoop (applyFlag emptyReq ("-d") (.s ("--bogus"))) []
    ∧ (applyFlag emptyReq ("-d") (.s ("--bogus"))).id = emptyReq.id :=
  c10_flag_value_consumption emptyReq ("-d") ("--bogus") [] rfl

end TicketAmend
